import Mathlib

/-
Verification of the milestone boundary-crossing and bookkeeping logic of
seekr2 (modules mmvt_base.py, elber_base.py, mmvt_sim_openmm.py).

Numeric values carried by milestones (force constants `k`, radii, CV
values, tolerances) are Python floats in the source; they are embedded
here as rationals (ℚ), so that every comparison in the embedded code is
exact and decidable.  Geometric quantities produced by the external
libraries mdtraj / numpy (per-frame center-of-mass distances) are taken
as inputs of the embedded functions, exactly as the source receives them
from those libraries before applying its own comparison logic.
-/

/-- The milestone variable dictionary accessed by
`MMVT_spherical_CV.check_value_within_boundary` (keys "k" and "radius",
mmvt_base.py lines 382-383). -/
structure SphericalMilestoneVars where
  k : ℚ
  radius : ℚ
deriving DecidableEq

/-- The milestone variable dictionary accessed by the Tiwary, planar and
RMSD checks (keys "k" and "value"). -/
structure ValueMilestoneVars where
  k : ℚ
  value : ℚ
deriving DecidableEq

/-- `MMVT_spherical_CV.check_value_within_boundary`
(mmvt_base.py lines 377-392): returns False when
`milestone_k*(radius - milestone_radius) > tolerance`, True otherwise.
The `verbose` printing has no effect on the returned value. -/
def MMVT_spherical_check_value_within_boundary (radius : ℚ)
    (milestone_variables : SphericalMilestoneVars) (tolerance : ℚ) : Bool :=
  if milestone_variables.k * (radius - milestone_variables.radius) > tolerance
  then false else true

/-- `MMVT_tiwary_CV.check_value_within_boundary`
(mmvt_base.py lines 683-698). -/
def MMVT_tiwary_check_value_within_boundary (op_value : ℚ)
    (milestone_variables : ValueMilestoneVars) (tolerance : ℚ) : Bool :=
  if milestone_variables.k * (op_value - milestone_variables.value) > tolerance
  then false else true

/-- `MMVT_planar_CV.check_value_within_boundary`
(mmvt_base.py lines 909-920). -/
def MMVT_planar_check_value_within_boundary (value : ℚ)
    (milestone_variables : ValueMilestoneVars) (tolerance : ℚ) : Bool :=
  if milestone_variables.k * (value - milestone_variables.value) > tolerance
  then false else true

/-- `MMVT_RMSD_CV.check_value_within_boundary`
(mmvt_base.py lines 1167-1179). -/
def MMVT_RMSD_check_value_within_boundary (value : ℚ)
    (milestone_variables : ValueMilestoneVars) (tolerance : ℚ) : Bool :=
  if milestone_variables.k * (value - milestone_variables.value) > tolerance
  then false else true

/-- Helper: the `if c then False else True` return pattern used by every
`check_value_within_boundary` yields False exactly when `c` holds. -/
lemma if_then_false_else_true_eq_false (c : Prop) [Decidable c] :
    ((if c then false else true) = false) ↔ c := by
  by_cases h : c <;> simp [h]

/-- C1: for the spherical, Tiwary, planar and RMSD MMVT CVs,
`check_value_within_boundary(value, milestone_variables, tolerance)`
returns False exactly when `k * (value - boundary) > tolerance` and True
otherwise; with tolerance 0 a value exactly equal to the milestone's
radius/value is classified as inside (returns True). -/
theorem C1_check_value_within_boundary_spec :
    (∀ (v tol : ℚ) (mv : SphericalMilestoneVars),
      MMVT_spherical_check_value_within_boundary v mv tol = false ↔
        mv.k * (v - mv.radius) > tol) ∧
    (∀ (v tol : ℚ) (mv : ValueMilestoneVars),
      MMVT_tiwary_check_value_within_boundary v mv tol = false ↔
        mv.k * (v - mv.value) > tol) ∧
    (∀ (v tol : ℚ) (mv : ValueMilestoneVars),
      MMVT_planar_check_value_within_boundary v mv tol = false ↔
        mv.k * (v - mv.value) > tol) ∧
    (∀ (v tol : ℚ) (mv : ValueMilestoneVars),
      MMVT_RMSD_check_value_within_boundary v mv tol = false ↔
        mv.k * (v - mv.value) > tol) ∧
    (∀ k R : ℚ, MMVT_spherical_check_value_within_boundary R ⟨k, R⟩ 0 = true) ∧
    (∀ k V : ℚ, MMVT_tiwary_check_value_within_boundary V ⟨k, V⟩ 0 = true) ∧
    (∀ k V : ℚ, MMVT_planar_check_value_within_boundary V ⟨k, V⟩ 0 = true) ∧
    (∀ k V : ℚ, MMVT_RMSD_check_value_within_boundary V ⟨k, V⟩ 0 = true) := by
  refine ⟨?_, ?_, ?_, ?_, ?_, ?_, ?_, ?_⟩ <;>
    intro a b <;>
    first
      | (intro mv
         exact if_then_false_else_true_eq_false _)
      | (simp [MMVT_spherical_check_value_within_boundary,
               MMVT_tiwary_check_value_within_boundary,
               MMVT_planar_check_value_within_boundary,
               MMVT_RMSD_check_value_within_boundary])

/-- The `step` function used when this codebase itself evaluates an
OpenMM-style expression: `step = lambda x : 0 if x < 0 else 1`
(mmvt_base.py line 1371, inside
`MMVT_external_CV.check_positions_within_boundary`). -/
def step_function (x : ℚ) : ℚ :=
  if x < 0 then 0 else 1

/-- Spec-side definition for the refinement claim C2: the value of the
spherical boundary-indicator expression
`step(k*(distance(g1, g2)^2 - radius^2))`
(`MMVT_spherical_CV.openmm_expression`, mmvt_base.py line 164) at a
configuration whose center-of-mass distance is `r`, with milestone
radius `R` and force constant `k`, reading the expression with the
`step` function above as the claim directs. -/
def spherical_openmm_indicator (k r R : ℚ) : ℚ :=
  step_function (k * (r ^ 2 - R ^ 2))

/-- C2 counterexample: the claim's biconditional fails at r = R = 1,
k = 1 (all side conditions hold there): the engine-side indicator
`step(k*(r^2 - R^2)) = step(0) = 1` is positive, classifying the
configuration as beyond the boundary, while the Python-side
`check_value_within_boundary` with tolerance 0 returns True (inside). -/
theorem C2_spherical_indicator_counterexample :
    ¬ (∀ r R k : ℚ, 0 ≤ r → 0 ≤ R → 0 < r + R → k ≠ 0 →
        (0 < spherical_openmm_indicator k r R ↔
          MMVT_spherical_check_value_within_boundary r ⟨k, R⟩ 0 = false)) := by
  intro h
  have h1 := h 1 1 1 (by norm_num) (by norm_num) (by norm_num) (by norm_num)
  have hpos : 0 < spherical_openmm_indicator 1 1 1 := by
    norm_num [spherical_openmm_indicator, step_function]
  have hfalse := h1.mp hpos
  have htrue : MMVT_spherical_check_value_within_boundary 1 ⟨1, 1⟩ 0 = true := by
    norm_num [MMVT_spherical_check_value_within_boundary]
  rw [htrue] at hfalse
  simp at hfalse

/-- C2 (amended): for every center-of-mass distance r ≥ 0, milestone
radius R ≥ 0 with r + R > 0 and r ≠ R, and every nonzero k, the
boundary-indicator expression `step(k*(distance^2 - radius^2))` is
positive exactly when `check_value_within_boundary` with tolerance 0
returns False.  (The exclusion r ≠ R is forced by the counterexample:
on the boundary itself step(0) = 1 counts the frame as beyond, while
the Python-side check counts it as inside.) -/
theorem C2_spherical_indicator_refines_check (r R k : ℚ)
    (hr : 0 ≤ r) (hR : 0 ≤ R) (hsum : 0 < r + R) (hne : r ≠ R) (hk : k ≠ 0) :
    (0 < spherical_openmm_indicator k r R ↔
      MMVT_spherical_check_value_within_boundary r ⟨k, R⟩ 0 = false) := by
  rw [MMVT_spherical_check_value_within_boundary,
    if_then_false_else_true_eq_false]
  unfold spherical_openmm_indicator step_function
  have hfact : k * (r ^ 2 - R ^ 2) = (k * (r - R)) * (r + R) := by ring
  have hd : r - R ≠ 0 := sub_ne_zero.mpr hne
  have hkd : k * (r - R) ≠ 0 := mul_ne_zero hk hd
  rcases hkd.lt_or_lt with hneg | hpos
  · have harg : k * (r ^ 2 - R ^ 2) < 0 := by
      rw [hfact]; exact mul_neg_of_neg_of_pos hneg hsum
    rw [if_pos harg]
    constructor
    · intro habs; exact absurd habs (by norm_num)
    · intro habs; exact absurd habs (by simpa using not_lt.mpr hneg.le)
  · have harg : ¬ (k * (r ^ 2 - R ^ 2) < 0) := by
      rw [hfact]; exact not_lt.mpr (mul_pos hpos hsum).le
    rw [if_neg harg]
    constructor
    · intro _; simpa using hpos
    · intro _; norm_num

/-- C2 witness: the amended equivalence, instantiated at r = 2, R = 1,
k = 1. -/
theorem C2_spherical_indicator_refines_check_witness :
    (0 < spherical_openmm_indicator 1 2 1 ↔
      MMVT_spherical_check_value_within_boundary 2 ⟨1, 1⟩ 0 = false) :=
  C2_spherical_indicator_refines_check 2 1 1 (by norm_num) (by norm_num)
    (by norm_num) (by norm_num) (by norm_num)

/-- `MMVT_spherical_CV.check_mdtraj_within_boundary`
(mmvt_base.py lines 305-338): loop over the frames of the trajectory;
for each frame the center-of-mass distance `radius` between group1 and
group2 (computed by the external mdtraj/numpy libraries, hence taken
here as the per-frame input list `radii`) is passed to
`check_value_within_boundary` with the default tolerance 0; the loop
returns False at the first failing frame and True after the last
frame. -/
def MMVT_spherical_check_mdtraj_within_boundary :
    List ℚ → SphericalMilestoneVars → Bool
  | [], _ => true
  | radius :: rest, milestone_variables =>
    if !(MMVT_spherical_check_value_within_boundary radius
          milestone_variables 0) then false
    else MMVT_spherical_check_mdtraj_within_boundary rest milestone_variables

/-- C3: `check_mdtraj_within_boundary` returns True iff every frame's
center-of-mass distance passes `check_value_within_boundary` with
tolerance 0; it returns False when some frame fails; and it returns
True on a trajectory with zero frames. -/
theorem C3_check_mdtraj_within_boundary_spec :
    (∀ (radii : List ℚ) (mv : SphericalMilestoneVars),
      MMVT_spherical_check_mdtraj_within_boundary radii mv = true ↔
        ∀ r ∈ radii,
          MMVT_spherical_check_value_within_boundary r mv 0 = true) ∧
    (∀ (radii : List ℚ) (mv : SphericalMilestoneVars),
      (∃ r ∈ radii,
        MMVT_spherical_check_value_within_boundary r mv 0 = false) →
      MMVT_spherical_check_mdtraj_within_boundary radii mv = false) ∧
    (∀ mv : SphericalMilestoneVars,
      MMVT_spherical_check_mdtraj_within_boundary [] mv = true) := by
  have hall : ∀ (radii : List ℚ) (mv : SphericalMilestoneVars),
      MMVT_spherical_check_mdtraj_within_boundary radii mv = true ↔
        ∀ r ∈ radii,
          MMVT_spherical_check_value_within_boundary r mv 0 = true := by
    intro radii mv
    induction radii with
    | nil => simp [MMVT_spherical_check_mdtraj_within_boundary]
    | cons radius rest ih =>
      rw [MMVT_spherical_check_mdtraj_within_boundary]
      by_cases h : MMVT_spherical_check_value_within_boundary radius mv 0
      · simp [h, ih]
      · simp [h]
  refine ⟨hall, ?_, ?_⟩
  · intro radii mv ⟨r, hmem, hfail⟩
    rcases hb : MMVT_spherical_check_mdtraj_within_boundary radii mv with _ | _
    · rfl
    · have := (hall radii mv).mp hb r hmem
      rw [this] at hfail
      simp at hfail
  · intro mv
    rfl

/-- C3 witness: a one-frame trajectory at distance 2 outside a
milestone of radius 1 with k = 1 makes the whole-trajectory check
fail. -/
theorem C3_check_mdtraj_within_boundary_spec_witness :
    MMVT_spherical_check_mdtraj_within_boundary [2] ⟨1, 1⟩ = false :=
  C3_check_mdtraj_within_boundary_spec.2.1 [2] ⟨1, 1⟩
    ⟨2, by simp, by norm_num [MMVT_spherical_check_value_within_boundary]⟩

/-- A milestone as used by `MMVT_anchor._make_milestone_collection` and
`Elber_anchor._make_milestone_collection`: only the three integer
attributes read there. -/
structure Milestone where
  index : ℤ
  neighbor_anchor_index : ℤ
  alias_index : ℤ
deriving DecidableEq

/-- A Python dict with int keys and int values, as a list of key-value
pairs in insertion order. -/
abbrev PyIntDict := List (ℤ × ℤ)

/-- Python dict assignment `d[key] = value`: overwrite the value in
place if the key is present, otherwise append the new pair at the
end. -/
def dictSet : PyIntDict → ℤ → ℤ → PyIntDict
  | [], key, value => [(key, value)]
  | p :: rest, key, value =>
    if p.1 = key then (key, value) :: rest
    else p :: dictSet rest key value

/-- Python dict lookup combined with the `if key in dict` guard used by
the anchor accessors: the stored value, or none when absent. -/
def dictGet : PyIntDict → ℤ → Option ℤ
  | [], _ => none
  | p :: rest, key => if p.1 = key then some p.2 else dictGet rest key

/-- `MMVT_anchor._make_milestone_collection` (mmvt_base.py lines
1502-1520) and the identical `Elber_anchor._make_milestone_collection`
(elber_base.py lines 675-693): one pass over the milestones filling
three dicts, returned as
(id->alias, alias->id, neighbor_id->alias). -/
def make_milestone_collection (milestones : List Milestone) :
    PyIntDict × PyIntDict × PyIntDict :=
  milestones.foldl
    (fun acc milestone =>
      (dictSet acc.1 milestone.index milestone.alias_index,
       dictSet acc.2.1 milestone.alias_index milestone.index,
       dictSet acc.2.2 milestone.neighbor_anchor_index
         milestone.alias_index))
    ([], [], [])

/-- `MMVT_anchor.id_from_alias` / `Elber_anchor.id_from_alias`. -/
def id_from_alias (milestones : List Milestone) (alias_id : ℤ) : Option ℤ :=
  dictGet (make_milestone_collection milestones).2.1 alias_id

/-- `MMVT_anchor.alias_from_id` / `Elber_anchor.alias_from_id`. -/
def alias_from_id (milestones : List Milestone) (my_id : ℤ) : Option ℤ :=
  dictGet (make_milestone_collection milestones).1 my_id

/-- `MMVT_anchor.alias_from_neighbor_id` /
`Elber_anchor.alias_from_neighbor_id`. -/
def alias_from_neighbor_id (milestones : List Milestone)
    (neighbor_id : ℤ) : Option ℤ :=
  dictGet (make_milestone_collection milestones).2.2 neighbor_id

lemma dictGet_dictSet_self (d : PyIntDict) (key value : ℤ) :
    dictGet (dictSet d key value) key = some value := by
  induction d with
  | nil => simp [dictSet, dictGet]
  | cons p rest ih =>
    by_cases hp : p.1 = key
    · simp [dictSet, dictGet, hp]
    · simp [dictSet, dictGet, hp, ih]

lemma dictGet_dictSet_ne (d : PyIntDict) (key value other : ℤ)
    (h : other ≠ key) :
    dictGet (dictSet d key value) other = dictGet d other := by
  have hko : ¬ key = other := fun hco => h hco.symm
  induction d with
  | nil => simp [dictSet, dictGet, hko]
  | cons p rest ih =>
    by_cases hp : p.1 = key
    · have hpo : ¬ p.1 = other := by rw [hp]; exact hko
      rw [dictSet, if_pos hp, dictGet, if_neg hko, dictGet, if_neg hpo]
    · rw [dictSet, if_neg hp]
      by_cases hq : p.1 = other
      · rw [dictGet, if_pos hq, dictGet, if_pos hq]
      · rw [dictGet, if_neg hq, dictGet, if_neg hq, ih]

/-- One of the three dict-filling loops of `_make_milestone_collection`,
generalized over which milestone attribute is the key (`f`) and which is
the value (`g`). -/
def buildDict (f g : Milestone → ℤ) (ms : List Milestone)
    (d : PyIntDict) : PyIntDict :=
  ms.foldl (fun acc m => dictSet acc (f m) (g m)) d

lemma make_milestone_collection_eq_buildDict (ms : List Milestone) :
    make_milestone_collection ms =
      (buildDict (fun m => m.index) (fun m => m.alias_index) ms [],
       buildDict (fun m => m.alias_index) (fun m => m.index) ms [],
       buildDict (fun m => m.neighbor_anchor_index)
         (fun m => m.alias_index) ms []) := by
  have hgen : ∀ (l : List Milestone) (a b c : PyIntDict),
      l.foldl
        (fun acc milestone =>
          (dictSet acc.1 milestone.index milestone.alias_index,
           dictSet acc.2.1 milestone.alias_index milestone.index,
           dictSet acc.2.2 milestone.neighbor_anchor_index
             milestone.alias_index))
        (a, b, c) =
      (buildDict (fun m => m.index) (fun m => m.alias_index) l a,
       buildDict (fun m => m.alias_index) (fun m => m.index) l b,
       buildDict (fun m => m.neighbor_anchor_index)
         (fun m => m.alias_index) l c) := by
    intro l
    induction l with
    | nil => intro a b c; rfl
    | cons m rest ih => intro a b c; rw [List.foldl_cons, ih]; rfl
  rw [make_milestone_collection, hgen]

lemma buildDict_get_of_key_absent (f g : Milestone → ℤ)
    (ms : List Milestone) (d : PyIntDict) (key : ℤ)
    (h : ∀ m ∈ ms, f m ≠ key) :
    dictGet (buildDict f g ms d) key = dictGet d key := by
  induction ms generalizing d with
  | nil => rfl
  | cons m rest ih =>
    rw [buildDict, List.foldl_cons]
    have hrest := ih (dictSet d (f m) (g m)) (fun m' hm' => h m' (by simp [hm']))
    rw [buildDict] at hrest
    rw [hrest, dictGet_dictSet_ne]
    exact fun hk => h m (by simp) hk.symm

lemma buildDict_get_of_mem (f g : Milestone → ℤ)
    (ms : List Milestone) (d : PyIntDict) (m : Milestone)
    (hm : m ∈ ms) (hdist : ms.Pairwise (fun a b => f a ≠ f b)) :
    dictGet (buildDict f g ms d) (f m) = some (g m) := by
  induction ms generalizing d with
  | nil => simp at hm
  | cons m0 rest ih =>
    rw [List.pairwise_cons] at hdist
    rw [buildDict, List.foldl_cons]
    rcases List.mem_cons.mp hm with heq | hmem
    · subst heq
      have habsent : ∀ m' ∈ rest, f m' ≠ f m :=
        fun m' hm' => (hdist.1 m' hm').symm
      have := buildDict_get_of_key_absent f g rest
        (dictSet d (f m) (g m)) (f m) habsent
      rw [buildDict] at this
      rw [this, dictGet_dictSet_self]
    · exact ih (dictSet d (f m0) (g m0)) hmem hdist.2

/-- C4: for an anchor whose milestones have pairwise-distinct `index`
values and pairwise-distinct `alias_index` values, the bookkeeping maps
are mutually inverse on the milestones' keys, and each of
`id_from_alias`, `alias_from_id` and `alias_from_neighbor_id` returns
None on a key belonging to no milestone. -/
theorem C4_milestone_maps_inverse (ms : List Milestone)
    (hidx : ms.Pairwise (fun a b => a.index ≠ b.index))
    (halias : ms.Pairwise (fun a b => a.alias_index ≠ b.alias_index)) :
    (∀ a : ℤ, (∃ m ∈ ms, m.alias_index = a) →
      (id_from_alias ms a).bind (alias_from_id ms) = some a) ∧
    (∀ i : ℤ, (∃ m ∈ ms, m.index = i) →
      (alias_from_id ms i).bind (id_from_alias ms) = some i) ∧
    (∀ a : ℤ, (∀ m ∈ ms, m.alias_index ≠ a) →
      id_from_alias ms a = none) ∧
    (∀ i : ℤ, (∀ m ∈ ms, m.index ≠ i) →
      alias_from_id ms i = none) ∧
    (∀ n : ℤ, (∀ m ∈ ms, m.neighbor_anchor_index ≠ n) →
      alias_from_neighbor_id ms n = none) := by
  have hid_mem : ∀ m ∈ ms, alias_from_id ms m.index = some m.alias_index := by
    intro m hm
    rw [alias_from_id, make_milestone_collection_eq_buildDict]
    exact buildDict_get_of_mem _ _ ms [] m hm hidx
  have halias_mem : ∀ m ∈ ms, id_from_alias ms m.alias_index = some m.index := by
    intro m hm
    rw [id_from_alias, make_milestone_collection_eq_buildDict]
    exact buildDict_get_of_mem _ _ ms [] m hm halias
  refine ⟨?_, ?_, ?_, ?_, ?_⟩
  · rintro a ⟨m, hm, rfl⟩
    rw [halias_mem m hm]
    exact hid_mem m hm
  · rintro i ⟨m, hm, rfl⟩
    rw [hid_mem m hm]
    exact halias_mem m hm
  · intro a ha
    rw [id_from_alias, make_milestone_collection_eq_buildDict]
    exact buildDict_get_of_key_absent _ _ ms [] a ha
  · intro i hi
    rw [alias_from_id, make_milestone_collection_eq_buildDict]
    exact buildDict_get_of_key_absent _ _ ms [] i hi
  · intro n hn
    rw [alias_from_neighbor_id, make_milestone_collection_eq_buildDict]
    exact buildDict_get_of_key_absent _ _ ms [] n hn

/-- C4 witness: a two-milestone anchor with distinct indices 5, 7 and
distinct aliases 1, 2; the alias-to-id-to-alias roundtrip at alias 2
yields 2. -/
theorem C4_milestone_maps_inverse_witness :
    (id_from_alias [⟨5, 3, 1⟩, ⟨7, 4, 2⟩] 2).bind
      (alias_from_id [⟨5, 3, 1⟩, ⟨7, 4, 2⟩]) = some 2 :=
  (C4_milestone_maps_inverse [⟨5, 3, 1⟩, ⟨7, 4, 2⟩]
    (by decide) (by decide)).1 2 ⟨⟨7, 4, 2⟩, by decide, by decide⟩

/-- An order parameter as used by `MMVT_tiwary_CV`: the Tiwary CV only
calls its `get_openmm_expression(group_index)` and `get_num_groups()`
methods (the order-parameter classes themselves live outside the
embedded modules), so it is embedded as exactly that interface. -/
structure OrderParameter where
  get_openmm_expression : ℕ → String
  get_num_groups : ℕ

/-- The loop body of
`MMVT_tiwary_CV.assign_expressions_and_variables`
(mmvt_base.py lines 461-472): iterate over
`enumerate(zip(order_parameters, order_parameter_weights))` carrying
the loop counter `i`, the growing `num_groups`, and accumulating the
expression terms and the weight-variable names.  Returns
(openmm_expression_list, weight-variable names, final num_groups). -/
def tiwary_loop :
    List (OrderParameter × ℚ) → ℕ → ℕ → List String × List String × ℕ
  | [], _, num_groups => ([], [], num_groups)
  | (order_parameter, _) :: rest, i, num_groups =>
    let weight_var := "c" ++ toString i
    let this_expr := weight_var ++ "*"
      ++ order_parameter.get_openmm_expression (num_groups + 1)
    let res := tiwary_loop rest (i + 1)
      (num_groups + order_parameter.get_num_groups)
    (this_expr :: res.1, weight_var :: res.2.1, res.2.2)

/-- The attributes set by
`MMVT_tiwary_CV.assign_expressions_and_variables`. -/
structure TiwaryAssignResult where
  openmm_expression : String
  restraining_expression : String
  num_groups : ℕ
  per_dof_variables : List String
  global_variables : List String

/-- `MMVT_tiwary_CV.assign_expressions_and_variables`
(mmvt_base.py lines 461-482), starting from `num_groups = 0` as set by
`__init__`: run the loop, join the terms with " + ", wrap them in the
step/restraining templates, and append "k" and "value" to the
per-degree-of-freedom variable names. -/
def tiwary_assign_expressions_and_variables (order_parameters : List OrderParameter)
    (order_parameter_weights : List ℚ) : TiwaryAssignResult :=
  let res := tiwary_loop (order_parameters.zip order_parameter_weights) 0 0
  { openmm_expression :=
      "step(k*(" ++ String.intercalate " + " res.1 ++ " - value))"
  , restraining_expression :=
      "0.5*k*(" ++ String.intercalate " + " res.1 ++ " - value)^2"
  , num_groups := res.2.2
  , per_dof_variables := res.2.1 ++ ["k", "value"]
  , global_variables := [] }

/-- Spec-side: the boundary-expression terms, one per order parameter:
term j is "cj*" followed by that order parameter's OpenMM expression
(requested at group index = 1 + number of groups of the preceding
order parameters). -/
def tiwary_terms : List OrderParameter → ℕ → ℕ → List String
  | [], _, _ => []
  | op :: rest, i, g =>
    ("c" ++ toString i ++ "*" ++ op.get_openmm_expression (g + 1))
      :: tiwary_terms rest (i + 1) (g + op.get_num_groups)

/-- Spec-side: the total group count of the order parameters before
position j. -/
def group_count_before (ops : List OrderParameter) (j : ℕ) : ℕ :=
  ((ops.take j).map (fun op => op.get_num_groups)).sum

lemma group_count_before_zero (ops : List OrderParameter) :
    group_count_before ops 0 = 0 := by
  simp [group_count_before]

lemma group_count_before_succ_cons (op : OrderParameter)
    (rest : List OrderParameter) (j : ℕ) :
    group_count_before (op :: rest) (j + 1) =
      op.get_num_groups + group_count_before rest j := by
  simp [group_count_before, List.take_succ_cons]

lemma tiwary_loop_eq (ops : List OrderParameter) (ws : List ℚ)
    (h : ops.length = ws.length) (i g : ℕ) :
    tiwary_loop (ops.zip ws) i g =
      (tiwary_terms ops i g,
       (List.range ops.length).map (fun j => "c" ++ toString (i + j)),
       g + (ops.map (fun op => op.get_num_groups)).sum) := by
  induction ops generalizing ws i g with
  | nil => simp [tiwary_loop, tiwary_terms]
  | cons op rest ih =>
    cases ws with
    | nil => simp at h
    | cons w ws' =>
      have h' : rest.length = ws'.length := by simpa using h
      rw [List.zip_cons_cons, tiwary_loop, ih ws' h' (i + 1)
        (g + op.get_num_groups)]
      simp only [Prod.mk.injEq]
      refine ⟨by rw [tiwary_terms], ?_, ?_⟩
      · simp only [List.length_cons, List.range_succ_eq_map, List.map_cons,
          List.map_map, Nat.succ_eq_add_one, Nat.add_zero, Function.comp]
        refine congrArg _ ?_
        refine List.map_congr_left ?_
        intro j _
        rw [show i + 1 + j = i + (j + 1) from by omega]
        simp [Nat.succ_eq_add_one]
      · simp only [List.map_cons, List.sum_cons]
        omega

lemma tiwary_terms_length (ops : List OrderParameter) (i g : ℕ) :
    (tiwary_terms ops i g).length = ops.length := by
  induction ops generalizing i g with
  | nil => rfl
  | cons op rest ih => simp [tiwary_terms, ih]

lemma tiwary_terms_getElem (ops : List OrderParameter) (i g j : ℕ)
    (hj : j < ops.length) :
    (tiwary_terms ops i g)[j]? =
      some ("c" ++ toString (i + j) ++ "*"
        ++ (ops.get ⟨j, hj⟩).get_openmm_expression
             (g + group_count_before ops j + 1)) := by
  induction ops generalizing i g j with
  | nil => simp at hj
  | cons op rest ih =>
    cases j with
    | zero =>
      rw [tiwary_terms]
      simp [group_count_before_zero]
    | succ j' =>
      have hj' : j' < rest.length := by simpa using hj
      rw [tiwary_terms]
      have hih := ih (i + 1) (g + op.get_num_groups) j' hj'
      simp only [List.getElem?_cons_succ, List.get_cons_succ, hih,
        group_count_before_succ_cons]
      rw [show i + (j' + 1) = i + 1 + j' from by omega,
        show g + (op.get_num_groups + group_count_before rest j') =
          g + op.get_num_groups + group_count_before rest j' from by omega]

/-- C5: `MMVT_tiwary_CV.assign_expressions_and_variables` builds the
boundary indicator as "step(k*(" ++ (the terms joined by " + ") ++
" - value))", where term j is "cj*" followed by order parameter j's
OpenMM expression (one term per order parameter, in input order); it
sets `num_groups` to the sum of the order parameters' group counts and
`per_dof_variables` to the weight names c0..c(N-1) in order followed by
"k" and "value". -/
theorem C5_tiwary_assign_expressions_spec (ops : List OrderParameter)
    (ws : List ℚ) (h : ops.length = ws.length) :
    ((tiwary_assign_expressions_and_variables ops ws).openmm_expression =
      "step(k*(" ++ String.intercalate " + " (tiwary_terms ops 0 0)
        ++ " - value))") ∧
    (tiwary_terms ops 0 0).length = ops.length ∧
    (∀ (j : ℕ) (hj : j < ops.length),
      (tiwary_terms ops 0 0)[j]? =
        some ("c" ++ toString j ++ "*"
          ++ (ops.get ⟨j, hj⟩).get_openmm_expression
               (group_count_before ops j + 1))) ∧
    (tiwary_assign_expressions_and_variables ops ws).num_groups =
      (ops.map (fun op => op.get_num_groups)).sum ∧
    (tiwary_assign_expressions_and_variables ops ws).per_dof_variables =
      (List.range ops.length).map (fun j => "c" ++ toString j)
        ++ ["k", "value"] := by
  rw [tiwary_assign_expressions_and_variables]
  rw [tiwary_loop_eq ops ws h 0 0]
  refine ⟨rfl, tiwary_terms_length ops 0 0, ?_, by simp, ?_⟩
  · intro j hj
    have := tiwary_terms_getElem ops 0 0 j hj
    simpa using this
  · simp only [List.append_cancel_right_eq]
    refine List.map_congr_left ?_
    intro j _
    simp

/-- C5 witness: a single order parameter with a two-group distance
expression and one weight. -/
theorem C5_tiwary_assign_expressions_spec_witness :
    (tiwary_assign_expressions_and_variables
        [⟨fun _ => "distance(g1, g2)", 2⟩] [1]).openmm_expression =
      "step(k*(" ++ String.intercalate " + "
        (tiwary_terms [⟨fun _ => "distance(g1, g2)", 2⟩] 0 0)
        ++ " - value))" :=
  (C5_tiwary_assign_expressions_spec
    [⟨fun _ => "distance(g1, g2)", 2⟩] [1] rfl).1

/-- A milestone as consumed by the spherical CV methods: its CV index,
its alias index, and its `variables` dict entries "k" (force constant)
and "radius" (in nanometers). -/
structure SphMilestone where
  cv_index : ℤ
  alias_index : ℤ
  k : ℚ
  radius : ℚ
deriving DecidableEq

/-- `MMVT_spherical_CV.get_namd_evaluation_string`
(mmvt_base.py lines 290-303).  `assert milestone.cv_index == self.index`
is modelled by returning none when the precondition fails.  The radius
is converted from nanometers to angstroms
(`radius_in_nm.value_in_unit(unit.angstroms)`, i.e. multiplied by 10).
Python renders the numbers k and radius_in_A with `str()`; that float
formatting is external to the logic, so the rendering function
`numRepr` is a parameter. -/
def MMVT_spherical_get_namd_evaluation_string (index : ℤ)
    (numRepr : ℚ → String) (milestone : SphMilestone)
    (cv_val_var : String) : Option String :=
  if milestone.cv_index = index then
    some (numRepr milestone.k ++ " * ($" ++ cv_val_var ++ "_"
      ++ toString index ++ " - " ++ numRepr (milestone.radius * 10)
      ++ ") > 0")
  else none

/-- C6: for every milestone whose cv_index equals the CV's index,
`get_namd_evaluation_string` returns exactly
"<k> * ($<cv_val_var>_<index> - <radius_A>) > 0" where <radius_A> is
the milestone's radius multiplied by 10 (nanometers to angstroms); the
precondition cv_index = index is asserted (none otherwise). -/
theorem C6_get_namd_evaluation_string_spec (index : ℤ)
    (numRepr : ℚ → String) (milestone : SphMilestone)
    (cv_val_var : String) :
    (milestone.cv_index = index →
      MMVT_spherical_get_namd_evaluation_string index numRepr milestone
          cv_val_var =
        some (numRepr milestone.k ++ " * ($" ++ cv_val_var ++ "_"
          ++ toString index ++ " - " ++ numRepr (milestone.radius * 10)
          ++ ") > 0")) ∧
    (milestone.cv_index ≠ index →
      MMVT_spherical_get_namd_evaluation_string index numRepr milestone
          cv_val_var = none) := by
  constructor
  · intro hcv
    rw [MMVT_spherical_get_namd_evaluation_string, if_pos hcv]
  · intro hcv
    rw [MMVT_spherical_get_namd_evaluation_string, if_neg hcv]

/-- C6 witness: CV index 0, milestone with k = 1 and radius 3/10 nm,
rendering rationals as "num/den". -/
theorem C6_get_namd_evaluation_string_spec_witness :
    MMVT_spherical_get_namd_evaluation_string 0
        (fun q => toString q.num ++ "/" ++ toString q.den)
        ⟨0, 1, 1, 3/10⟩ "cv_val" =
      some ((fun (q : ℚ) => toString q.num ++ "/" ++ toString q.den) 1
        ++ " * ($" ++ "cv_val" ++ "_" ++ toString (0 : ℤ) ++ " - "
        ++ (fun (q : ℚ) => toString q.num ++ "/" ++ toString q.den)
             ((3 / 10 : ℚ) * 10) ++ ") > 0") :=
  (C6_get_namd_evaluation_string_spec 0
    (fun q => toString q.num ++ "/" ++ toString q.den)
    ⟨0, 1, 1, 3/10⟩ "cv_val").1 rfl

/-- `MMVT_spherical_CV.openmm_expression` (mmvt_base.py line 164). -/
def MMVT_spherical_openmm_expression : String :=
  "step(k*(distance(g1, g2)^2 - radius^2))"

/-- `Elber_spherical_CV.openmm_fwd_rev_expression`
(elber_base.py lines 180-181). -/
def Elber_spherical_openmm_fwd_rev_expression : String :=
  "step(k*(distance(g1, g2)^2 - radius^2))"

/-- `Elber_spherical_CV.get_namd_fwd_rev_evaluation_string`
(elber_base.py lines 309-322), embedded the same way as the MMVT
version. -/
def Elber_spherical_get_namd_fwd_rev_evaluation_string (index : ℤ)
    (numRepr : ℚ → String) (milestone : SphMilestone)
    (cv_val_var : String) : Option String :=
  if milestone.cv_index = index then
    some (numRepr milestone.k ++ " * ($" ++ cv_val_var ++ "_"
      ++ toString index ++ " - " ++ numRepr (milestone.radius * 10)
      ++ ") > 0")
  else none

/-- C8: the Elber spherical CV monitors crossings exactly like the MMVT
spherical CV: its `openmm_fwd_rev_expression` is the identical string
to `MMVT_spherical_CV.openmm_expression`, and for every milestone and
cv_val_var its `get_namd_fwd_rev_evaluation_string` returns the same
string as `MMVT_spherical_CV.get_namd_evaluation_string`. -/
theorem C8_elber_spherical_matches_mmvt :
    Elber_spherical_openmm_fwd_rev_expression =
      MMVT_spherical_openmm_expression ∧
    ∀ (index : ℤ) (numRepr : ℚ → String) (milestone : SphMilestone)
      (cv_val_var : String),
      Elber_spherical_get_namd_fwd_rev_evaluation_string index numRepr
          milestone cv_val_var =
        MMVT_spherical_get_namd_evaluation_string index numRepr
          milestone cv_val_var :=
  ⟨rfl, fun _ _ _ _ => rfl⟩

/-- `MMVT_spherical_CV.per_dof_variables` as set by `__init__`
(mmvt_base.py line 167). -/
def MMVT_spherical_per_dof_variables : List String := ["k", "radius"]

/-- `MMVT_spherical_CV.global_variables` as set by `__init__`
(mmvt_base.py line 168). -/
def MMVT_spherical_global_variables : List String := []

/-- The `variable_names_list` returned by
`MMVT_spherical_CV.add_parameters` (mmvt_base.py lines 236-263):
"bitcode" first, then the per-dof variables, then the global variables
(the calls registering each name on the OpenMM force object are
external side effects mirroring this list). -/
def MMVT_spherical_add_parameters : List String :=
  ["bitcode"] ++ MMVT_spherical_per_dof_variables
    ++ MMVT_spherical_global_variables

/-- `MMVT_spherical_CV.get_variable_values_list`
(mmvt_base.py lines 275-288): asserts milestone.cv_index == self.index
(modelled as none on failure) and returns
[2^(alias_index - 1), k, radius]; the parmed unit annotations
(kilojoules/mole/angstrom^2 for k, nanometers for radius) wrap the
numeric values and are dropped here.  The exponent alias_index - 1 is
an integer exponent, as in Python, so alias_index 0 would give the
float 2**(-1). -/
def MMVT_spherical_get_variable_values_list (index : ℤ)
    (milestone : SphMilestone) : Option (List ℚ) :=
  if milestone.cv_index = index then
    some [(2 : ℚ) ^ (milestone.alias_index - 1), milestone.k,
      milestone.radius]
  else none

/-- C9: `add_parameters` declares ["bitcode", "k", "radius"] and, for a
milestone with matching cv_index, `get_variable_values_list` produces
exactly one value per declared name, position for position: the bitcode
2^(alias_index - 1) first, then the milestone's k, then its radius, so
`make_mmvt_boundary_definitions` (mmvt_sim_openmm.py lines 176-217),
which feeds this values list to the force holding these parameter
names, binds every declared parameter to the intended value. -/
theorem C9_spherical_parameter_value_pairing (index : ℤ)
    (milestone : SphMilestone) (h : milestone.cv_index = index) :
    MMVT_spherical_add_parameters = ["bitcode", "k", "radius"] ∧
    MMVT_spherical_get_variable_values_list index milestone =
      some [(2 : ℚ) ^ (milestone.alias_index - 1), milestone.k,
        milestone.radius] ∧
    ∀ values : List ℚ,
      MMVT_spherical_get_variable_values_list index milestone =
        some values →
      values.length = MMVT_spherical_add_parameters.length ∧
      MMVT_spherical_add_parameters.zip values =
        [("bitcode", (2 : ℚ) ^ (milestone.alias_index - 1)),
         ("k", milestone.k), ("radius", milestone.radius)] := by
  have hsome : MMVT_spherical_get_variable_values_list index milestone =
      some [(2 : ℚ) ^ (milestone.alias_index - 1), milestone.k,
        milestone.radius] := by
    rw [MMVT_spherical_get_variable_values_list, if_pos h]
  refine ⟨rfl, hsome, ?_⟩
  intro values hvalues
  rw [hsome] at hvalues
  cases Option.some.injEq .. ▸ hvalues with
  | refl => exact ⟨rfl, rfl⟩

/-- C9 witness: CV index 0, milestone with alias_index 1 (bitcode
2^0 = 1), k = 9 and radius 1/2. -/
theorem C9_spherical_parameter_value_pairing_witness :
    MMVT_spherical_get_variable_values_list 0 ⟨0, 1, 9, 1/2⟩ =
      some [(2 : ℚ) ^ ((1 : ℤ) - 1), 9, 1/2] :=
  (C9_spherical_parameter_value_pairing 0 ⟨0, 1, 9, 1/2⟩ rfl).2.1

/-- `MMVT_external_CV.check_mdtraj_within_boundary`
(mmvt_base.py lines 1332-1337): "For now, this will just always return
True."  The trajectory and milestone-variable arguments are never
inspected, so their types are parameters. -/
def MMVT_external_check_mdtraj_within_boundary {Traj Vars : Type}
    (traj : Traj) (milestone_variables : Vars) (verbose : Bool) : Bool :=
  true

/-- `MMVT_external_CV.check_mdtraj_close_to_boundary`
(mmvt_base.py lines 1406-1411): always True. -/
def MMVT_external_check_mdtraj_close_to_boundary {Traj Vars : Type}
    (traj : Traj) (milestone_variables : Vars) (verbose : Bool)
    (max_avg max_std : ℚ) : Bool :=
  true

/-- `Elber_external_CV.check_mdtraj_within_boundary`
(elber_base.py lines 495-500): always True. -/
def Elber_external_check_mdtraj_within_boundary {Traj Vars : Type}
    (traj : Traj) (milestone_variables : Vars) (verbose : Bool) : Bool :=
  true

/-- `Elber_external_CV.check_mdtraj_close_to_boundary`
(elber_base.py lines 570-575): always True. -/
def Elber_external_check_mdtraj_close_to_boundary {Traj Vars : Type}
    (traj : Traj) (milestone_variables : Vars) (verbose : Bool)
    (max_avg max_std : ℚ) : Bool :=
  true

/-- C10: for the external CVs (MMVT and Elber), both trajectory checks
return True for every trajectory and every set of milestone variables,
unconditionally. -/
theorem C10_external_trajectory_checks_vacuous :
    (∀ (Traj Vars : Type) (traj : Traj) (mv : Vars) (verbose : Bool),
      MMVT_external_check_mdtraj_within_boundary traj mv verbose = true) ∧
    (∀ (Traj Vars : Type) (traj : Traj) (mv : Vars) (verbose : Bool)
      (max_avg max_std : ℚ),
      MMVT_external_check_mdtraj_close_to_boundary traj mv verbose
        max_avg max_std = true) ∧
    (∀ (Traj Vars : Type) (traj : Traj) (mv : Vars) (verbose : Bool),
      Elber_external_check_mdtraj_within_boundary traj mv verbose = true) ∧
    (∀ (Traj Vars : Type) (traj : Traj) (mv : Vars) (verbose : Bool)
      (max_avg max_std : ℚ),
      Elber_external_check_mdtraj_close_to_boundary traj mv verbose
        max_avg max_std = true) :=
  ⟨fun _ _ _ _ _ => rfl, fun _ _ _ _ _ _ _ => rfl,
   fun _ _ _ _ _ => rfl, fun _ _ _ _ _ _ _ => rfl⟩

/-- `np.mean` of a list of rationals (numpy is external; mean of a
nonempty list is the sum divided by the length). -/
def np_mean (l : List ℚ) : ℚ :=
  l.sum / (l.length : ℚ)

/-- The square of `np.std` of a list of rationals: the mean squared
deviation from the mean (numpy's default, with no degrees-of-freedom
correction). -/
def np_std_sq (l : List ℚ) : ℚ :=
  ((l.map (fun x => (x - np_mean l) ^ 2)).sum) / (l.length : ℚ)

/-- The comparison `np.std(l) > bound`, decided without leaving ℚ:
since np.std(l) = √(np_std_sq l) ≥ 0, it exceeds `bound` exactly when
`bound < 0` or `bound^2 < np_std_sq l`.  The lemma `np_std_gt_iff`
below proves this equal to the real-number comparison. -/
def np_std_gt (l : List ℚ) (bound : ℚ) : Bool :=
  decide (bound < 0) || decide (bound ^ 2 < np_std_sq l)

lemma np_std_sq_nonneg (l : List ℚ) : 0 ≤ np_std_sq l := by
  rw [np_std_sq]
  apply div_nonneg
  · apply List.sum_nonneg
    intro x hx
    rcases List.mem_map.mp hx with ⟨y, _, rfl⟩
    positivity
  · positivity

lemma np_std_gt_iff (l : List ℚ) (bound : ℚ) :
    np_std_gt l bound = true ↔
      (bound : ℝ) < Real.sqrt ((np_std_sq l : ℚ) : ℝ) := by
  rw [np_std_gt]
  rcases lt_or_le bound 0 with hb | hb
  · have hb' : (bound : ℝ) < 0 := by exact_mod_cast hb
    simp only [decide_eq_true hb, Bool.true_or, true_iff]
    exact lt_of_lt_of_le hb' (Real.sqrt_nonneg _)
  · have hb0 : ¬ bound < 0 := not_lt.mpr hb
    have hbR : (0 : ℝ) ≤ (bound : ℝ) := by exact_mod_cast hb
    simp only [decide_eq_false hb0, Bool.false_or, decide_eq_true_eq]
    rw [Real.lt_sqrt hbR,
      show ((bound : ℝ)) ^ 2 = ((bound ^ 2 : ℚ) : ℝ) from by push_cast; ring]
    exact Rat.cast_lt.symm

/-- `MMVT_spherical_CV.check_mdtraj_close_to_boundary`
(mmvt_base.py lines 394-423): build the per-frame differences
(center-of-mass distance minus milestone radius; the distances come
from mdtraj/numpy and are the input list `radii`), then return False
when |np.mean(distances)| > max_avg or np.std(distances) > max_std,
and True otherwise. -/
def MMVT_spherical_check_mdtraj_close_to_boundary (radii : List ℚ)
    (milestone_variables : SphericalMilestoneVars)
    (max_avg max_std : ℚ) : Bool :=
  let distances := radii.map
    (fun radius => radius - milestone_variables.radius)
  let avg_distance := np_mean distances
  if |avg_distance| > max_avg ∨ np_std_gt distances max_std = true
  then false else true

/-- `Elber_spherical_CV.check_mdtraj_close_to_boundary`
(elber_base.py lines 324-351), the same computation line for line. -/
def Elber_spherical_check_mdtraj_close_to_boundary (radii : List ℚ)
    (milestone_variables : SphericalMilestoneVars)
    (max_avg max_std : ℚ) : Bool :=
  let distances := radii.map
    (fun radius => radius - milestone_variables.radius)
  let avg_distance := np_mean distances
  if |avg_distance| > max_avg ∨ np_std_gt distances max_std = true
  then false else true

/-- The default `max_avg=0.03` of both `check_mdtraj_close_to_boundary`
signatures (mmvt_base.py line 395, elber_base.py line 325). -/
def spherical_close_default_max_avg : ℚ := 0.03

/-- The default `max_std=0.05` of both `check_mdtraj_close_to_boundary`
signatures (mmvt_base.py line 395, elber_base.py line 325). -/
def spherical_close_default_max_std : ℚ := 0.05

/-- C7: for a trajectory with at least one frame,
`check_mdtraj_close_to_boundary` returns False iff the absolute mean of
the per-frame differences (distance minus milestone radius) exceeds
max_avg or their standard deviation (√ of the mean squared deviation)
exceeds max_std; the defaults are 0.03 and 0.05; and the Elber
spherical CV applies the identical criterion. -/
theorem C7_check_mdtraj_close_to_boundary_spec :
    (∀ (radii : List ℚ) (mv : SphericalMilestoneVars)
        (max_avg max_std : ℚ), radii ≠ [] →
      (MMVT_spherical_check_mdtraj_close_to_boundary radii mv max_avg
          max_std = false ↔
        |np_mean (radii.map (fun radius => radius - mv.radius))|
            > max_avg ∨
          (max_std : ℝ) < Real.sqrt
            ((np_std_sq (radii.map (fun radius => radius - mv.radius))
              : ℚ) : ℝ))) ∧
    spherical_close_default_max_avg = 3 / 100 ∧
    spherical_close_default_max_std = 1 / 20 ∧
    (∀ (radii : List ℚ) (mv : SphericalMilestoneVars)
        (max_avg max_std : ℚ),
      Elber_spherical_check_mdtraj_close_to_boundary radii mv max_avg
          max_std =
        MMVT_spherical_check_mdtraj_close_to_boundary radii mv max_avg
          max_std) := by
  refine ⟨?_, by norm_num [spherical_close_default_max_avg],
    by norm_num [spherical_close_default_max_std],
    fun _ _ _ _ => rfl⟩
  intro radii mv max_avg max_std _
  rw [MMVT_spherical_check_mdtraj_close_to_boundary]
  rw [if_then_false_else_true_eq_false]
  exact or_congr Iff.rfl (np_std_gt_iff _ _)

/-- C7 witness: a one-frame trajectory exactly on a radius-1 milestone
passes with max_avg = max_std = 1 (both sides of the iff are false). -/
theorem C7_check_mdtraj_close_to_boundary_spec_witness :
    MMVT_spherical_check_mdtraj_close_to_boundary [1] ⟨1, 1⟩ 1 1
        = false ↔
      |np_mean ([1].map (fun radius => radius - (1 : ℚ)))| > 1 ∨
        ((1 : ℚ) : ℝ) < Real.sqrt
          ((np_std_sq ([1].map (fun radius => radius - (1 : ℚ)))
            : ℚ) : ℝ) :=
  C7_check_mdtraj_close_to_boundary_spec.1 [1] ⟨1, 1⟩ 1 1
    (List.cons_ne_nil 1 [])
